import Mathlib

/-!
Verification of the versitygw multi-tenant storage core.

This file shallowly embeds the Go code of the repository:

* `backend/lustre_enhanced.go` — the stripe planner (`calculateOptimalStriping`,
  `calculateStripeChunks`) and the parallel stripe reader (`parallelReadStripes`);
* `auth/multi_tenant.go` — the multi-tenant manager (`CheckQuota`,
  `SetUserStorageConfig`, `GetUserBasePath`, `ValidateUserAccess`, `isSubPath`);
* `backend/dynamic_backend.go` — the dynamic backend manager
  (`GetUserBackend`, `createUserBackend`, `createBackendByType`,
  `UnmountUserBackend`).

Go `int`/`int64` byte counts and quotas are modelled as `Int` (the quantities
handled by these functions are byte counts of real objects, far below 2^63, so
two's-complement wrap never occurs on the modelled paths); loop counters,
offsets and sizes appearing in the chunk decomposition are modelled as `Nat`,
matching the claims' restriction to non-negative offsets and positive lengths
on which Go's truncating `int64` division agrees with `Nat` division.
Effectful calls (POSIX file reads, `posix.New`, the mount/umount processes)
are modelled as explicit oracle parameters, and the per-tenant mutable maps of
the managers as association lists passed in and out of each operation.
-/

/-! ## Stripe planner: `StripeChunk` and `calculateStripeChunks`
(`backend/lustre_enhanced.go` lines 413-454) -/

/-- `StripeChunk` from `lustre_enhanced.go`: a chunk of data within a stripe.
Offsets and sizes are the non-negative `int64` values of the Go code. -/
structure StripeChunk where
  Offset : Nat
  Size : Nat
  Stripe : Nat
  deriving Repr, DecidableEq

/-- The loop body of `calculateStripeChunks`: starting from `currentOffset`
with `remaining` bytes still to cover, emit chunks until `remaining == 0`.
If `stripeSize = 0` or `stripeCount = 0` the Go code would divide by zero
(a runtime panic); that unreachable case returns `[]` here. -/
def calcStripeLoop (stripeSize stripeCount currentOffset remaining : Nat) : List StripeChunk :=
  if remaining = 0 then []
  else if stripeSize = 0 ∨ stripeCount = 0 then []
  else
    -- stripeIndex := (currentOffset / stripeSize) % stripeCount
    let stripeIndex := (currentOffset / stripeSize) % stripeCount
    -- stripeOffset := currentOffset % stripeSize
    let stripeOffset := currentOffset % stripeSize
    -- chunkSize := stripeSize - stripeOffset; if chunkSize > remaining { chunkSize = remaining }
    let chunkSize := if stripeSize - stripeOffset > remaining then remaining else stripeSize - stripeOffset
    { Offset := currentOffset, Size := chunkSize, Stripe := stripeIndex } ::
      calcStripeLoop stripeSize stripeCount (currentOffset + chunkSize) (remaining - chunkSize)
termination_by remaining
decreasing_by
  have hmod : currentOffset % stripeSize < stripeSize := Nat.mod_lt _ (by omega)
  split <;> omega

/-- `calculateStripeChunks(offset, size, stripeInfo)` from `lustre_enhanced.go`:
walks `[offset, offset+size)` left to right emitting stripe-aligned chunks. -/
def calculateStripeChunks (offset size stripeSize stripeCount : Nat) : List StripeChunk :=
  calcStripeLoop stripeSize stripeCount offset size

/-- The chunk list starts at `o` and each chunk begins where the previous one
ended (contiguity of the decomposition). -/
def contiguousFrom : Nat → List StripeChunk → Bool
  | _, [] => true
  | o, c :: cs => c.Offset == o && contiguousFrom (o + c.Size) cs

/-- Total number of bytes covered by a chunk list. -/
def sumSizes : List StripeChunk → Nat
  | [] => 0
  | c :: cs => c.Size + sumSizes cs

theorem calcStripeLoop_spec (stripeSize stripeCount : Nat)
    (hss : 0 < stripeSize) (hsc : 0 < stripeCount) :
    ∀ remaining currentOffset,
      contiguousFrom currentOffset (calcStripeLoop stripeSize stripeCount currentOffset remaining) = true ∧
      sumSizes (calcStripeLoop stripeSize stripeCount currentOffset remaining) = remaining ∧
      ∀ c ∈ calcStripeLoop stripeSize stripeCount currentOffset remaining,
        0 < c.Size ∧ c.Offset / stripeSize = (c.Offset + c.Size - 1) / stripeSize ∧
        c.Stripe = (c.Offset / stripeSize) % stripeCount := by
  intro remaining
  induction remaining using Nat.strong_induction_on with
  | _ remaining ih =>
    intro o
    by_cases h0 : remaining = 0
    · subst h0
      rw [calcStripeLoop]
      simp [contiguousFrom, sumSizes]
    · rw [calcStripeLoop]
      simp only [if_neg h0]
      have hor : ¬ (stripeSize = 0 ∨ stripeCount = 0) := by omega
      simp only [if_neg hor]
      have hmod : o % stripeSize < stripeSize := Nat.mod_lt _ hss
      set k := if stripeSize - o % stripeSize > remaining then remaining
               else stripeSize - o % stripeSize with hk
      have hkpos : 0 < k := by rw [hk]; split <;> omega
      have hkle : k ≤ remaining := by rw [hk]; split <;> omega
      have hkstripe : k ≤ stripeSize - o % stripeSize := by rw [hk]; split <;> omega
      have hrec := ih (remaining - k) (by omega) (o + k)
      refine ⟨?_, ?_, ?_⟩
      · simp [contiguousFrom, hrec.1]
      · simp only [sumSizes, hrec.2.1]; omega
      · intro c hc
        rcases List.mem_cons.mp hc with hc | hc
        · subst hc
          refine ⟨hkpos, ?_, rfl⟩
        -- the chunk [o, o+k) stays inside the stripe containing o
          have hdecomp : o = stripeSize * (o / stripeSize) + o % stripeSize :=
            (Nat.div_add_mod o stripeSize).symm
          have hlow : (o / stripeSize) * stripeSize ≤ o + k - 1 := by
            rw [Nat.mul_comm]; omega
          have hhigh : o + k - 1 < (o / stripeSize + 1) * stripeSize := by
            rw [Nat.add_mul, Nat.one_mul, Nat.mul_comm]; omega
          exact (Nat.div_eq_of_lt_le hlow hhigh).symm
        · exact hrec.2.2 c hc

theorem contiguousFrom_offset_ge {o : Nat} {cs : List StripeChunk}
    (h : contiguousFrom o cs = true) : ∀ c ∈ cs, o ≤ c.Offset := by
  induction cs generalizing o with
  | nil => intro c hc; cases hc
  | cons a rest ih =>
    simp only [contiguousFrom, Bool.and_eq_true, beq_iff_eq] at h
    intro c hc
    rcases List.mem_cons.mp hc with hc | hc
    · subst hc; omega
    · have := ih h.2 c hc; omega

theorem contiguousFrom_pairwise {o : Nat} {cs : List StripeChunk}
    (h : contiguousFrom o cs = true) :
    cs.Pairwise (fun a b => a.Offset + a.Size ≤ b.Offset) := by
  induction cs generalizing o with
  | nil => exact List.Pairwise.nil
  | cons a rest ih =>
    simp only [contiguousFrom, Bool.and_eq_true, beq_iff_eq] at h
    refine List.Pairwise.cons ?_ (ih h.2)
    intro b hb
    have := contiguousFrom_offset_ge h.2 b hb
    omega

theorem contiguousFrom_cover {o : Nat} {cs : List StripeChunk}
    (h : contiguousFrom o cs = true) :
    ∀ x : Nat, (∃ c ∈ cs, c.Offset ≤ x ∧ x < c.Offset + c.Size) ↔
      (o ≤ x ∧ x < o + sumSizes cs) := by
  induction cs generalizing o with
  | nil => intro x; simp [sumSizes]
  | cons a rest ih =>
    simp only [contiguousFrom, Bool.and_eq_true, beq_iff_eq] at h
    intro x
    have hrest := ih h.2 x
    simp only [List.mem_cons, sumSizes]
    constructor
    · rintro ⟨c, hc | hc, hx⟩
      · subst hc; omega
      · have := hrest.mp ⟨c, hc, hx⟩; omega
    · intro hx
      by_cases hhead : x < a.Offset + a.Size
      · exact ⟨a, Or.inl rfl, by omega, hhead⟩
      · obtain ⟨c, hc, hcx⟩ := hrest.mpr (by omega)
        exact ⟨c, Or.inr hc, hcx⟩

theorem calculateStripeChunks_props (offset size stripeSize stripeCount : Nat)
    (hss : 0 < stripeSize) (hsc : 1 ≤ stripeCount) (hsize : 0 < size) :
    contiguousFrom offset (calculateStripeChunks offset size stripeSize stripeCount) = true ∧
    sumSizes (calculateStripeChunks offset size stripeSize stripeCount) = size ∧
    (calculateStripeChunks offset size stripeSize stripeCount).Pairwise
      (fun a b => a.Offset + a.Size ≤ b.Offset) ∧
    (∀ x : Nat,
      (∃ c ∈ calculateStripeChunks offset size stripeSize stripeCount,
          c.Offset ≤ x ∧ x < c.Offset + c.Size) ↔
        (offset ≤ x ∧ x < offset + size)) ∧
    (∀ c ∈ calculateStripeChunks offset size stripeSize stripeCount,
      0 < c.Size ∧ c.Offset / stripeSize = (c.Offset + c.Size - 1) / stripeSize ∧
      c.Stripe = (c.Offset / stripeSize) % stripeCount) := by
  have hspec := calcStripeLoop_spec stripeSize stripeCount hss hsc size offset
  refine ⟨hspec.1, hspec.2.1, contiguousFrom_pairwise hspec.1, ?_, hspec.2.2⟩
  intro x
  have := contiguousFrom_cover hspec.1 x
  rw [calculateStripeChunks]
  rw [hspec.2.1] at this
  exact this

/-- C1: for every `offset ≥ 0`, `length > 0`, `stripeSize > 0`,
`stripeCount ≥ 1`, the chunks produced by `calculateStripeChunks` are ordered
left to right, contiguous (each starts where the previous one ends),
pairwise non-overlapping, total exactly the requested length, cover exactly
`[offset, offset+length)`, each chunk lies within a single stripe boundary
(`c.Offset / stripeSize = (c.Offset + c.Size - 1) / stripeSize`), and each
chunk's stripe index is `(c.Offset / stripeSize) % stripeCount`. -/
theorem calculateStripeChunks_spec (offset size stripeSize stripeCount : Nat)
    (hss : 0 < stripeSize) (hsc : 1 ≤ stripeCount) (hsize : 0 < size) :
    contiguousFrom offset (calculateStripeChunks offset size stripeSize stripeCount) = true ∧
    sumSizes (calculateStripeChunks offset size stripeSize stripeCount) = size ∧
    (calculateStripeChunks offset size stripeSize stripeCount).Pairwise
      (fun a b => a.Offset + a.Size ≤ b.Offset) ∧
    (∀ x : Nat,
      (∃ c ∈ calculateStripeChunks offset size stripeSize stripeCount,
          c.Offset ≤ x ∧ x < c.Offset + c.Size) ↔
        (offset ≤ x ∧ x < offset + size)) ∧
    (∀ c ∈ calculateStripeChunks offset size stripeSize stripeCount,
      0 < c.Size ∧ c.Offset / stripeSize = (c.Offset + c.Size - 1) / stripeSize ∧
      c.Stripe = (c.Offset / stripeSize) % stripeCount) :=
  calculateStripeChunks_props offset size stripeSize stripeCount hss hsc hsize

theorem calculateStripeChunks_spec_witness :
    0 < 4 ∧ 1 ≤ 2 ∧ 0 < 10 ∧
    (contiguousFrom 3 (calculateStripeChunks 3 10 4 2) = true ∧
     sumSizes (calculateStripeChunks 3 10 4 2) = 10 ∧
     (calculateStripeChunks 3 10 4 2).Pairwise (fun a b => a.Offset + a.Size ≤ b.Offset) ∧
     (∀ x : Nat,
       (∃ c ∈ calculateStripeChunks 3 10 4 2, c.Offset ≤ x ∧ x < c.Offset + c.Size) ↔
         (3 ≤ x ∧ x < 3 + 10)) ∧
     (∀ c ∈ calculateStripeChunks 3 10 4 2,
       0 < c.Size ∧ c.Offset / 4 = (c.Offset + c.Size - 1) / 4 ∧
       c.Stripe = (c.Offset / 4) % 2)) :=
  ⟨by decide, by decide, by decide,
    calculateStripeChunks_spec 3 10 4 2 (by decide) (by decide) (by decide)⟩

/-! ## Stripe planner: `calculateOptimalStriping`
(`backend/lustre_enhanced.go` lines 118-143) -/

/-- `LustreStripeInfo` from `lustre_enhanced.go` (the `OSTs` slice is unused by
the modelled functions and omitted). -/
structure LustreStripeInfo where
  StripeCount : Int
  StripeSize : Int
  StripeIndex : Int
  deriving Repr, DecidableEq

/-- The `StripeCount`/`StripeSize` fields of `LustreConfig`
(`backend/dynamic_backend.go` lines 97-103) consumed by the stripe planner. -/
structure LustreConfig where
  StripeCount : Int
  StripeSize : Int
  deriving Repr, DecidableEq

/-- `calculateOptimalStriping(size)` from `lustre_enhanced.go`: picks the
stripe count from the size tier, caps it at the configured maximum when that
is positive, and lets Lustre choose the placement (`StripeIndex = -1`). -/
def calculateOptimalStriping (lustreConfig : LustreConfig) (size : Int) : LustreStripeInfo :=
  let base : Int :=
    if size < 1*1024*1024 then 1
    else if size < 100*1024*1024 then 2
    else if size < 1*1024*1024*1024 then 4
    else 8
  let capped : Int :=
    if lustreConfig.StripeCount > 0 ∧ base > lustreConfig.StripeCount then
      lustreConfig.StripeCount
    else base
  { StripeCount := capped, StripeSize := lustreConfig.StripeSize, StripeIndex := -1 }

/-- The tier table exactly as the spec words it: `<1MiB → 1`,
`1MiB ≤ size < 100MiB → 2`, `100MiB ≤ size < 1GiB → 4`, `≥1GiB → 8`. -/
def specTier (size : Int) : Int :=
  if size < 1048576 then 1
  else if size < 104857600 then 2
  else if size < 1073741824 then 4
  else 8

/-- C4: for every object size the planner returns the tier value 1/2/4/8,
capped at the configured maximum stripe count exactly when that maximum is
positive, always with `StripeIndex = -1`; with configured maximum 0 a 2 GiB
object plans stripe count 8 and a 500 KiB object plans stripe count 1. -/
theorem calculateOptimalStriping_spec (lustreConfig : LustreConfig) (size : Int) :
    (calculateOptimalStriping lustreConfig size).StripeIndex = -1 ∧
    (calculateOptimalStriping lustreConfig size).StripeCount =
      (if 0 < lustreConfig.StripeCount then min (specTier size) lustreConfig.StripeCount
       else specTier size) ∧
    (calculateOptimalStriping { StripeCount := 0, StripeSize := 0 } (2*1024*1024*1024)).StripeCount = 8 ∧
    (calculateOptimalStriping { StripeCount := 0, StripeSize := 0 } (500*1024)).StripeCount = 1 := by
  refine ⟨rfl, ?_, by decide, by decide⟩
  simp only [calculateOptimalStriping, specTier]
  split <;> split <;> split <;> simp_all <;> omega

/-! ## Parallel stripe reader: `parallelReadStripes`
(`backend/lustre_enhanced.go` lines 351-411)

A positional read (`file.ReadAt`) is modelled as an oracle
`reader : Nat → Nat → List Nat × Option String` taking the chunk offset and
size and returning the filled buffer together with an optional error, exactly
the `(data, err)` pair of the Go call.  Each goroutine of the Go code writes
into its own pre-allocated slot `results[index]`/`errors[index]`, so the slot
contents are a pure function of the chunk regardless of scheduling; the
deterministic `List.map` below is therefore a faithful rendering of the
concurrent loop, and the completion order of the goroutines cannot influence
any result of the modelled function. -/

/-- The `for _, err := range errors` loop of `parallelReadStripes`: the first
(lowest-index) error recorded in the per-chunk error slots, if any. -/
def firstChunkErr : List (List Nat × Option String) → Option String
  | [] => none
  | (_, some e) :: _ => some e
  | (_, none) :: rest => firstChunkErr rest

/-- The `result = append(result, data...)` loop of `parallelReadStripes`:
per-chunk buffers concatenated in chunk order. -/
def combineChunks : List (List Nat × Option String) → List Nat
  | [] => []
  | r :: rs => r.1 ++ combineChunks rs

/-- `parallelReadStripes(file, offset, size, stripeInfo)` from
`lustre_enhanced.go`: one direct positional read when `stripeCount ≤ 1`,
otherwise decompose the range into stripe chunks, read every chunk into its
own slot, return `nil` data with the lowest-index chunk error when any read
failed, else concatenate the slots in chunk order. -/
def parallelReadStripes (reader : Nat → Nat → List Nat × Option String)
    (stripeCount stripeSize : Nat) (offset size : Nat) : List Nat × Option String :=
  if stripeCount ≤ 1 then
    reader offset size
  else
    match firstChunkErr ((calculateStripeChunks offset size stripeSize stripeCount).map
        (fun c => reader c.Offset c.Size)) with
    | some e => ([], some e)
    | none =>
        (combineChunks ((calculateStripeChunks offset size stripeSize stripeCount).map
          (fun c => reader c.Offset c.Size)), none)

/-- Model of `os.File.ReadAt` on a file with contents `file`: fills a
`size`-byte zero-initialised buffer from position `off`; the error slot is set
(`io.EOF`) exactly when fewer than `size` bytes were available. -/
def readAtGo (file : List Nat) (off size : Nat) : List Nat × Option String :=
  ((file.drop off).take size ++ List.replicate (size - min size (file.length - off)) 0,
   if min size (file.length - off) < size then some "EOF" else none)

theorem firstChunkErr_none_iff (l : List (List Nat × Option String)) :
    firstChunkErr l = none ↔ ∀ r ∈ l, r.2 = none := by
  induction l with
  | nil => simp [firstChunkErr]
  | cons r rest ih =>
    obtain ⟨d, e⟩ := r
    cases e with
    | none => simp [firstChunkErr, ih]
    | some e => simp [firstChunkErr]

theorem combineChunks_reads {file : List Nat} :
    ∀ {cs : List StripeChunk} {o : Nat}, contiguousFrom o cs = true →
      o + sumSizes cs ≤ file.length →
      combineChunks (cs.map (fun c => readAtGo file c.Offset c.Size)) =
        (file.drop o).take (sumSizes cs) := by
  intro cs
  induction cs with
  | nil => intro o _ _; simp [combineChunks, sumSizes]
  | cons a rest ih =>
    intro o hcontig hlen
    simp only [contiguousFrom, Bool.and_eq_true, beq_iff_eq] at hcontig
    obtain ⟨ha, hrest⟩ := hcontig
    simp only [sumSizes] at hlen ⊢
    simp only [List.map_cons, combineChunks]
    have hzero : a.Size - min a.Size (file.length - a.Offset) = 0 := by omega
    have hbuf : (readAtGo file a.Offset a.Size).1 = (file.drop a.Offset).take a.Size := by
      simp [readAtGo, hzero]
    rw [hbuf, ih hrest (by omega), ha]
    rw [List.take_add (file.drop o) a.Size (sumSizes rest), List.drop_drop]

/-- C5: on success the parallel stripe read returns exactly the bytes of one
direct positional read of `[offset, offset+size)`: for `stripeCount ≤ 1` it
is a single direct read, and for `stripeCount > 1` the per-chunk buffers
assembled in the chunk order of `calculateStripeChunks` equal the direct
read, independent of goroutine completion order (the per-chunk slots are a
pure function of the chunk, see the section comment). -/
theorem parallelReadStripes_refines (file : List Nat)
    (stripeCount stripeSize offset size : Nat) (hss : 0 < stripeSize)
    (data : List Nat)
    (h : parallelReadStripes (readAtGo file) stripeCount stripeSize offset size =
          (data, none)) :
    readAtGo file offset size = (data, none) := by
  by_cases hsc : stripeCount ≤ 1
  · rw [parallelReadStripes, if_pos hsc] at h
    exact h
  · by_cases hsize : size = 0
    · have hchunks : calculateStripeChunks offset size stripeSize stripeCount = [] := by
        subst hsize
        rw [calculateStripeChunks, calcStripeLoop]
        simp
      have hval : parallelReadStripes (readAtGo file) stripeCount stripeSize offset size
          = ([], none) := by
        rw [parallelReadStripes, if_neg hsc, hchunks]
        rfl
      rw [hval] at h
      have hdata : data = [] := by simpa using h.symm
      subst hsize hdata
      simp [readAtGo]
    · have hspec := calculateStripeChunks_props offset size stripeSize stripeCount
        hss (by omega) (by omega)
      obtain ⟨hcontig, hsum, -, hcover, hchunk⟩ := hspec
      cases herr : firstChunkErr ((calculateStripeChunks offset size stripeSize
          stripeCount).map (fun c => readAtGo file c.Offset c.Size)) with
      | some e =>
        have hval : parallelReadStripes (readAtGo file) stripeCount stripeSize offset size
            = ([], some e) := by
          rw [parallelReadStripes, if_neg hsc, herr]
        rw [hval] at h
        exact absurd h (by simp)
      | none =>
        have hall := (firstChunkErr_none_iff _).mp herr
        -- every chunk read succeeded, hence every chunk lies inside the file
        have hinside : ∀ c ∈ calculateStripeChunks offset size stripeSize stripeCount,
            c.Offset + c.Size ≤ file.length := by
          intro c hc
          have hr := hall (readAtGo file c.Offset c.Size) (List.mem_map_of_mem _ hc)
          have hpos := (hchunk c hc).1
          simp only [readAtGo] at hr
          split at hr
          · exact absurd hr (by simp)
          · omega
        -- the whole requested range lies inside the file
        have hrange : offset + size ≤ file.length := by
          obtain ⟨c, hc, hcx⟩ := (hcover (offset + size - 1)).mpr (by omega)
          have := hinside c hc
          omega
        have hcomb := @combineChunks_reads file _ offset hcontig (by omega)
        rw [hsum] at hcomb
        have hval : parallelReadStripes (readAtGo file) stripeCount stripeSize offset size
            = ((file.drop offset).take size, none) := by
          rw [parallelReadStripes, if_neg hsc, herr]
          simpa using hcomb
        rw [hval] at h
        have hdata : data = (file.drop offset).take size := by simpa using h.symm
        have hmin : min size (file.length - offset) = size := by omega
        simp [readAtGo, hmin, hdata]

theorem parallelReadStripes_refines_witness :
    0 < 4 ∧
    parallelReadStripes (readAtGo [10, 11, 12, 13, 14, 15, 16, 17]) 2 4 1 6 =
      ([11, 12, 13, 14, 15, 16], none) ∧
    readAtGo [10, 11, 12, 13, 14, 15, 16, 17] 1 6 = ([11, 12, 13, 14, 15, 16], none) :=
  ⟨by decide,
   by simp [parallelReadStripes, calculateStripeChunks, calcStripeLoop,
            firstChunkErr, combineChunks, readAtGo],
   parallelReadStripes_refines [10, 11, 12, 13, 14, 15, 16, 17] 2 4 1 6 (by decide) _
     (by simp [parallelReadStripes, calculateStripeChunks, calcStripeLoop,
               firstChunkErr, combineChunks, readAtGo])⟩

theorem firstChunkErr_at_idx :
    ∀ (l : List (List Nat × Option String)) (j : Nat) (e : String),
      j < l.length → (l.getD j ([], none)).2 = some e →
      (∀ k, k < j → (l.getD k ([], none)).2 = none) →
      firstChunkErr l = some e := by
  intro l
  induction l with
  | nil => intro j e hj _ _; simp at hj
  | cons r rest ih =>
    intro j e hj he hb
    cases j with
    | zero =>
      simp only [List.getD_cons_zero] at he
      obtain ⟨d, e'⟩ := r
      simp only at he
      rw [he]
      rfl
    | succ j =>
      have h0 := hb 0 (Nat.succ_pos j)
      simp only [List.getD_cons_zero] at h0
      obtain ⟨d, e'⟩ := r
      simp only at h0
      subst h0
      simp only [List.getD_cons_succ] at he
      simp only [List.length_cons, Nat.succ_lt_succ_iff] at hj
      have := ih j e hj he (fun k hk => by
        have := hb (k + 1) (by omega)
        simpa using this)
      simpa [firstChunkErr] using this

/-- C6: when at least one chunk read fails, the whole parallel stripe read
returns `nil` data (never a partially assembled buffer) together with the
error of the failed chunk with the lowest chunk index — deterministic in the
chunk order of `calculateStripeChunks`, not in goroutine completion order
(each goroutine writes only its own error slot, see the section comment). -/
theorem parallelReadStripes_error_spec
    (reader : Nat → Nat → List Nat × Option String)
    (stripeCount stripeSize offset size : Nat) (h2 : 2 ≤ stripeCount)
    (j : Nat) (e : String)
    (hj : j < ((calculateStripeChunks offset size stripeSize stripeCount).map
            (fun c => reader c.Offset c.Size)).length)
    (he : (((calculateStripeChunks offset size stripeSize stripeCount).map
            (fun c => reader c.Offset c.Size)).getD j ([], none)).2 = some e)
    (hb : ∀ k, k < j →
      (((calculateStripeChunks offset size stripeSize stripeCount).map
        (fun c => reader c.Offset c.Size)).getD k ([], none)).2 = none) :
    parallelReadStripes reader stripeCount stripeSize offset size = ([], some e) := by
  have herr := firstChunkErr_at_idx _ j e hj he hb
  rw [parallelReadStripes, if_neg (by omega), herr]

theorem parallelReadStripes_error_spec_witness :
    (2 ≤ 2 ∧
     2 < ((calculateStripeChunks 3 10 4 2).map
        (fun c => (fun o s => if 5 ≤ o then (([] : List Nat), some "EOF")
                              else (List.replicate s 1, none)) c.Offset c.Size)).length ∧
     (((calculateStripeChunks 3 10 4 2).map
        (fun c => (fun o s => if 5 ≤ o then (([] : List Nat), some "EOF")
                              else (List.replicate s 1, none)) c.Offset c.Size)).getD 2
        ([], none)).2 = some "EOF" ∧
     (∀ k, k < 2 → (((calculateStripeChunks 3 10 4 2).map
        (fun c => (fun o s => if 5 ≤ o then (([] : List Nat), some "EOF")
                              else (List.replicate s 1, none)) c.Offset c.Size)).getD k
        ([], none)).2 = none)) ∧
    parallelReadStripes
      (fun o s => if 5 ≤ o then (([] : List Nat), some "EOF")
                  else (List.replicate s 1, none)) 2 4 3 10 = ([], some "EOF") := by
  have hch : calculateStripeChunks 3 10 4 2 = [⟨3,1,0⟩, ⟨4,4,1⟩, ⟨8,4,0⟩, ⟨12,1,1⟩] := by
    simp [calculateStripeChunks, calcStripeLoop]
  refine ⟨⟨by omega, ?_, ?_, ?_⟩, ?_⟩
  · rw [hch]; decide
  · rw [hch]; decide
  · rw [hch]; decide
  · exact parallelReadStripes_error_spec _ 2 4 3 10 (by omega) 2 "EOF"
      (by rw [hch]; decide) (by rw [hch]; decide) (by rw [hch]; decide)

/-! ## Multi-tenant manager: configuration store and quota guard
(`auth/multi_tenant.go`)

The `DefaultMultiTenantManager`'s mutable `userConfigs` map is modelled as an
association list with map semantics (`alGet`/`alSet`/`alDel`); `BackendConfig`
and `Metadata` maps are carried opaquely by the Go code (never inspected on
the modelled paths — `mapToStruct` in `dynamic_backend.go` is a stub that
always succeeds with zero values) and are omitted from the record. -/

/-- Association-list lookup, modelling Go map indexing. -/
def alGet {α : Type} : List (String × α) → String → Option α
  | [], _ => none
  | (k, v) :: rest, key => if k = key then some v else alGet rest key

/-- Association-list removal, modelling Go `delete`. -/
def alDel {α : Type} : List (String × α) → String → List (String × α)
  | [], _ => []
  | (k, v) :: rest, key => if k = key then alDel rest key else (k, v) :: alDel rest key

/-- Association-list update, modelling Go map assignment. -/
def alSet {α : Type} (l : List (String × α)) (key : String) (v : α) : List (String × α) :=
  (key, v) :: alDel l key

theorem alGet_del_eq {α : Type} (l : List (String × α)) (k : String) :
    alGet (alDel l k) k = none := by
  induction l with
  | nil => simp [alDel, alGet]
  | cons p rest ih =>
    obtain ⟨pk, pv⟩ := p
    by_cases hp : pk = k
    · simpa [alDel, hp] using ih
    · simp [alDel, alGet, hp, ih]

theorem alGet_del_ne {α : Type} (l : List (String × α)) (k k' : String)
    (h : k ≠ k') : alGet (alDel l k) k' = alGet l k' := by
  induction l with
  | nil => simp [alDel]
  | cons p rest ih =>
    obtain ⟨pk, pv⟩ := p
    by_cases hp : pk = k
    · rw [show alDel ((pk, pv) :: rest) k = alDel rest k from by simp [alDel, hp]]
      rw [ih]
      have hne : pk ≠ k' := by rw [hp]; exact h
      simp [alGet, hne]
    · rw [show alDel ((pk, pv) :: rest) k = (pk, pv) :: alDel rest k from by
        simp [alDel, hp]]
      by_cases hp' : pk = k'
      · simp [alGet, hp']
      · simp [alGet, hp', ih]

theorem alGet_set_eq {α : Type} (l : List (String × α)) (k : String) (v : α) :
    alGet (alSet l k v) k = some v := by
  simp [alSet, alGet]

theorem alGet_set_ne {α : Type} (l : List (String × α)) (k k' : String) (v : α)
    (h : k ≠ k') : alGet (alSet l k v) k' = alGet l k' := by
  simp only [alSet, alGet, if_neg h]
  exact alGet_del_ne l k k' h


/-- `UserStorageConfig` from `auth/multi_tenant.go` (the opaque
`BackendConfig`/`Metadata` maps omitted, see the section comment). -/
structure UserStorageConfig where
  BackendType : String
  StoragePath : String
  Quota : Int
  UsedSpace : Int
  Mounted : Bool
  deriving Repr, DecidableEq

/-- The error values of `auth/multi_tenant.go` (`ErrUserStorageNotFound`,
`ErrQuotaExceeded`, ...) plus the two ad-hoc `errors.New` sites of the same
file (`config cannot be nil`, `multi-tenant mode not enabled`). -/
inductive AuthErr where
  | userStorageNotFound
  | quotaExceeded
  | mountFailed
  | unmountFailed
  | invalidBackendType
  | nilConfig
  | notEnabled
  | accessDenied
  deriving Repr, DecidableEq

/-- `MultiTenantConfig` from `auth/multi_tenant.go`. -/
structure MultiTenantConfig where
  Enabled : Bool
  DefaultBackendType : String
  BasePath : String
  DefaultQuota : Int
  deriving Repr, DecidableEq

/-- The `DefaultMultiTenantManager`'s state: its static configuration and the
mutable `userConfigs` map. -/
structure MTState where
  config : MultiTenantConfig
  userConfigs : List (String × UserStorageConfig)
  deriving Repr, DecidableEq

/-- `GetUserStorageConfig(userID)` from `auth/multi_tenant.go`. -/
def GetUserStorageConfig (m : MTState) (userID : String) :
    Except AuthErr UserStorageConfig :=
  match alGet m.userConfigs userID with
  | none => .error .userStorageNotFound
  | some config => .ok config

/-- The `validBackends` list of `SetUserStorageConfig`. -/
def validBackends : List String := ["posix", "cephfs", "nfs", "lustre", "minio", "rustfs"]

/-- `SetUserStorageConfig(userID, config)` from `auth/multi_tenant.go`: a nil
config is rejected, the backend type is validated against `validBackends`,
then the config is stored. -/
def SetUserStorageConfig (m : MTState) (userID : String)
    (config : Option UserStorageConfig) : MTState × Option AuthErr :=
  match config with
  | none => (m, some .nilConfig)
  | some c =>
    if validBackends.contains c.BackendType then
      ({ m with userConfigs := alSet m.userConfigs userID c }, none)
    else
      (m, some .invalidBackendType)

/-- `CheckQuota(userID, additionalSize)` from `auth/multi_tenant.go`: quota 0
means unlimited, otherwise reject exactly when
`UsedSpace + additionalSize > Quota`. -/
def CheckQuota (m : MTState) (userID : String) (additionalSize : Int) :
    Option AuthErr :=
  match GetUserStorageConfig m userID with
  | .error e => some e
  | .ok config =>
    if config.Quota = 0 then none
    else if config.UsedSpace + additionalSize > config.Quota then some .quotaExceeded
    else none

/-- C3: for every stored user record, `CheckQuota` succeeds whenever the
record's quota is 0, and otherwise succeeds exactly when
`UsedSpace + additionalSize ≤ Quota` and returns `ErrQuotaExceeded` exactly
when `UsedSpace + additionalSize > Quota`; with quota 100 and used 90 it
fails for additional size 20 and succeeds for additional size 10. -/
theorem CheckQuota_spec (m : MTState) (userID : String) (additionalSize : Int)
    (config : UserStorageConfig)
    (hfound : alGet m.userConfigs userID = some config) :
    (config.Quota = 0 → CheckQuota m userID additionalSize = none) ∧
    (CheckQuota m userID additionalSize = none ↔
      (config.Quota = 0 ∨ config.UsedSpace + additionalSize ≤ config.Quota)) ∧
    (CheckQuota m userID additionalSize = some .quotaExceeded ↔
      (config.Quota ≠ 0 ∧ config.UsedSpace + additionalSize > config.Quota)) ∧
    CheckQuota { config := ⟨true, "posix", "/b", 0⟩,
                 userConfigs := [("u", ⟨"posix", "/b/u", 100, 90, true⟩)] } "u" 20 =
      some .quotaExceeded ∧
    CheckQuota { config := ⟨true, "posix", "/b", 0⟩,
                 userConfigs := [("u", ⟨"posix", "/b/u", 100, 90, true⟩)] } "u" 10 =
      none := by
  have hget : GetUserStorageConfig m userID = .ok config := by
    rw [GetUserStorageConfig, hfound]
  have hred : CheckQuota m userID additionalSize =
      (if config.Quota = 0 then none
       else if config.UsedSpace + additionalSize > config.Quota then
         some AuthErr.quotaExceeded
       else none) := by
    rw [CheckQuota, hget]
  refine ⟨?_, ?_, ?_, by decide, by decide⟩
  · intro hq
    rw [hred]
    simp [hq]
  · rw [hred]
    by_cases hq : config.Quota = 0
    · rw [if_pos hq]; simp [hq]
    · rw [if_neg hq]
      by_cases hgt : config.UsedSpace + additionalSize > config.Quota
      · rw [if_pos hgt]; simp; omega
      · rw [if_neg hgt]; simp; omega
  · rw [hred]
    by_cases hq : config.Quota = 0
    · rw [if_pos hq]; simp [hq]
    · rw [if_neg hq]
      by_cases hgt : config.UsedSpace + additionalSize > config.Quota
      · rw [if_pos hgt]; simp; omega
      · rw [if_neg hgt]; simp; omega

theorem CheckQuota_spec_witness :
    (alGet (MTState.userConfigs
        { config := ⟨true, "posix", "/b", 0⟩,
          userConfigs := [("u", ⟨"posix", "/b/u", 0, 90, true⟩)] }) "u" =
      some ⟨"posix", "/b/u", 0, 90, true⟩) ∧
    CheckQuota { config := ⟨true, "posix", "/b", 0⟩,
                 userConfigs := [("u", ⟨"posix", "/b/u", 0, 90, true⟩)] } "u" 12345 =
      none :=
  ⟨by decide,
   (CheckQuota_spec _ "u" 12345 ⟨"posix", "/b/u", 0, 90, true⟩ (by decide)).1 rfl⟩

/-! ## Path containment: `filepath` model, `isSubPath`, `ValidateUserAccess`
(`auth/multi_tenant.go` lines 307-335)

`isSubPath` calls the Go standard library's `filepath.Rel`, `filepath.IsAbs`
and `filepath.HasPrefix` (Unix semantics).  Go strings are modelled as
`List Char`; `filepath.Clean` is modelled by its component algorithm (skip
empty and `.` elements, pop on `..` unless at the root or nothing poppable)
and `filepath.Rel` by the element scan of its Go source: clean both paths,
return `.` on equality, fail when exactly one is rooted, strip the longest
common element run, fail when the first remaining base element is `..`, else
produce one `..` per remaining base element followed by the remaining target
elements — where a cleaned relative target `.` contributes the literal
element `.` to the scan, exactly as in the Go string-level loop. -/

/-- Split on `'/'`, modelling `strings.Split(s, "/")` as used to enumerate
path elements; never returns `[]`. -/
def splitOnSlash : List Char → List (List Char)
  | [] => [[]]
  | c :: rest =>
    if c = '/' then [] :: splitOnSlash rest
    else
      match splitOnSlash rest with
      | [] => [[c]]
      | g :: gs => (c :: g) :: gs

/-- One step of `filepath.Clean`'s element processing, with the output stack
reversed (`out.head?` is the most recent element). -/
def cleanPush (rooted : Bool) (out : List (List Char)) (c : List Char) : List (List Char) :=
  if c = [] ∨ c = ['.'] then out
  else if c = ['.', '.'] then
    match out with
    | top :: rest => if top = ['.', '.'] then c :: out else rest
    | [] => if rooted then [] else [['.', '.']]
  else c :: out

/-- The cleaned element list of a path (the elements of `filepath.Clean`'s
output, without the root marker). -/
def cleanSegs (rooted : Bool) (segs : List (List Char)) : List (List Char) :=
  (segs.foldl (cleanPush rooted) []).reverse

/-- Model of Go `strings.HasPrefix s pre` (byte-level). -/
def strStarts : List Char → List Char → Bool
  | _, [] => true
  | [], _ :: _ => false
  | c :: cs, p :: ps => c == p && strStarts cs ps

/-- Model of `filepath.IsAbs` on Unix: `strings.HasPrefix(path, "/")`. -/
def isAbsL (s : List Char) : Bool := strStarts s ['/']

/-- Cleaned element list of a raw path. -/
def cleanCompsOf (s : List Char) : List (List Char) := cleanSegs (isAbsL s) (splitOnSlash s)

/-- `strings.Join(elems, "/")`. -/
def joinComps : List (List Char) → List Char
  | [] => []
  | [c] => c
  | c :: rest => c ++ '/' :: joinComps rest

/-- Render a cleaned path back to a string, as `filepath.Clean` does:
rooted paths get a leading `/`, an empty relative path renders as `.`. -/
def renderClean (rooted : Bool) (comps : List (List Char)) : List Char :=
  if rooted then '/' :: joinComps comps
  else if comps = [] then ['.']
  else joinComps comps

/-- Model of `filepath.Clean` (Unix). -/
def goCleanL (s : List Char) : List Char := renderClean (isAbsL s) (cleanCompsOf s)

/-- The path element `..`. -/
def dotdotL : List Char := ['.', '.']

/-- The element scan of `filepath.Rel`: drop the longest common leading run
of elements, returning both remainders. -/
def dropCommonSegs : List (List Char) → List (List Char) →
    (List (List Char) × List (List Char))
  | b :: bs, t :: ts => if b = t then dropCommonSegs bs ts else (b :: bs, t :: ts)
  | bs, ts => (bs, ts)

/-- Render the result of `filepath.Rel`; `[]` only arises when the cleaned
paths were equal, which `relCore` returns as `.` before reaching this. -/
def renderRel : List (List Char) → List Char
  | [] => ['.']
  | cs => joinComps cs

/-- Model of `filepath.Rel(basepath, targpath)` (Unix), following the Go
source: `none` is the `Rel: can't make ... relative to ...` error. -/
def relCore (base targ : List Char) : Option (List Char) :=
  if isAbsL base = isAbsL targ ∧ cleanCompsOf base = cleanCompsOf targ then
    some ['.']
  else if isAbsL base ≠ isAbsL targ then none
  else
    match dropCommonSegs (cleanCompsOf base)
        (if isAbsL targ = false ∧ cleanCompsOf targ = [] then [['.']]
         else cleanCompsOf targ) with
    | ([], trest) => some (renderRel trest)
    | (b :: brest, trest) =>
      if b = dotdotL then none
      else some (joinComps (List.replicate (b :: brest).length dotdotL ++ trest))

/-- `isSubPath(basePath, path)` from `auth/multi_tenant.go`: `filepath.Rel`
must succeed and the relative path must be neither absolute nor have the
string prefix `".."` (`filepath.HasPrefix` is a plain string-prefix test). -/
def isSubPathCore (basePath path : List Char) : Bool :=
  match relCore basePath path with
  | none => false
  | some relPath => !(isAbsL relPath) && !(strStarts relPath dotdotL)

/-- String-level wrapper of `isSubPathCore`. -/
def isSubPath (basePath path : String) : Bool := isSubPathCore basePath.data path.data

/-- Model of `filepath.Join` (Unix): empty elements are dropped, the rest are
joined with `/` and cleaned; all-empty input yields the empty string. -/
def goJoinL (elems : List (List Char)) : List Char :=
  match elems.filter (fun e => !(e == [])) with
  | [] => []
  | ne => goCleanL (joinComps ne)

/-- `GetUserBasePath(userID)` from `auth/multi_tenant.go`:
`filepath.Join(BasePath, "users", userID)` when multi-tenant mode is on. -/
def GetUserBasePath (m : MTState) (userID : String) : Except AuthErr String :=
  if m.config.Enabled then
    .ok ⟨goJoinL [m.config.BasePath.data, "users".data, userID.data]⟩
  else .error .notEnabled

/-- `IsTenantIsolationEnabled` from `auth/multi_tenant.go`. -/
def IsTenantIsolationEnabled (m : MTState) : Bool := m.config.Enabled

/-- `ValidateUserAccess(userID, resourcePath, manager)` from
`auth/multi_tenant.go`. -/
def ValidateUserAccess (m : MTState) (userID resourcePath : String) : Option AuthErr :=
  if !(IsTenantIsolationEnabled m) then none
  else
    match GetUserBasePath m userID with
    | .error e => some e
    | .ok userBasePath =>
      if !(isSubPath userBasePath resourcePath) then some .accessDenied
      else none

/-- Boolean leading-run test on element lists. -/
def listLeads : List (List Char) → List (List Char) → Bool
  | [], _ => true
  | _ :: _, [] => false
  | b :: bs, t :: ts => b == t && listLeads bs ts

/-- The claim's notion, stated from the spec's words: `path` is a filesystem
descendant of `base` (or `base` itself) when both are equally rooted and the
cleaned elements of `base` are a leading run of the cleaned elements of
`path`. -/
def specIsDescendant (base path : String) : Bool :=
  (isAbsL base.data == isAbsL path.data) &&
  listLeads (cleanCompsOf base.data) (cleanCompsOf path.data)

/-! ## Dynamic backend manager
(`backend/dynamic_backend.go`)

Backend handles are opaque (`BackendHandle := Nat`); the effectful
constructors and the mount/umount processes are oracle functions in `DynEnv`
(`posixNew` folds `os.MkdirAll` + `posix.New`; the mount oracles fold
`executeMount` of the command built for the mount point — `mapToStruct` is a
stub always succeeding with zero-valued configs, so the parsed backend
parameters carry no information).  `CreatedAt`/`LastAccessed` are wall-clock
timestamps and are omitted from `UserBackendConfig`; `updateLastAccessed`
touches only them and is therefore the identity here. -/

/-- Opaque handle to a constructed backend. -/
abbrev BackendHandle := Nat

/-- `BackendStatus` from `dynamic_backend.go`. -/
inductive BackendStatus where
  | pending
  | mounting
  | ready
  | error
  | unmounting
  | unmounted
  deriving Repr, DecidableEq

/-- `UserBackendConfig` from `dynamic_backend.go` (opaque `Config` map and
timestamps omitted, see the section comment). -/
structure UserBackendConfig where
  UserID : String
  BackendType : String
  MountPoint : String
  Quota : Int
  UsedSpace : Int
  Status : BackendStatus
  deriving Repr, DecidableEq

/-- The fields of `DynamicBackendConfig` read on the modelled paths
(`BaseMountPath`, the timeouts and the feature flags are consumed only by the
oracles; `BackendDefaults` is copied into the omitted opaque config map). -/
structure DynamicBackendConfig where
  DefaultBackend : String
  deriving Repr, DecidableEq

/-- Oracles for the effectful calls of `dynamic_backend.go`, each keyed by
the value the Go call is built from: `posixNew` by the mount point
(`os.MkdirAll` + `posix.New`), the three mount oracles by the mount point
(`executeMount` under its timeout; `none` means exit status 0), `s3proxyNew`
by the user id (`s3proxy.New` with the user-specific meta bucket), and the
two umount oracles by the mount point (`umount` and `umount -f`). -/
structure DynEnv where
  posixNew : String → Except String BackendHandle
  mountCephFS : String → Option String
  mountNFS : String → Option String
  mountLustre : String → Option String
  s3proxyNew : String → Except String BackendHandle
  umountOk : String → Bool
  umountForceOk : String → Bool

/-- The `DynamicBackendManager`'s three mutable maps. -/
structure DynState where
  userBackends : List (String × BackendHandle)
  userConfigs : List (String × UserBackendConfig)
  mountPoints : List (String × String)
  deriving Repr, DecidableEq

/-- `createPosixBackend` from `dynamic_backend.go`. -/
def createPosixBackend (env : DynEnv) (config : UserBackendConfig) :
    Except String BackendHandle :=
  env.posixNew config.MountPoint

/-- `createCephFSBackend` from `dynamic_backend.go`: mount, record the mount
point, then build a POSIX backend on the mounted filesystem. -/
def createCephFSBackend (env : DynEnv) (dm : DynState) (config : UserBackendConfig) :
    DynState × Except String BackendHandle :=
  match env.mountCephFS config.MountPoint with
  | some e => (dm, .error ("failed to mount CephFS: " ++ e))
  | none =>
    ({ dm with mountPoints := alSet dm.mountPoints config.UserID config.MountPoint },
     createPosixBackend env config)

/-- `createNFSBackend` from `dynamic_backend.go`. -/
def createNFSBackend (env : DynEnv) (dm : DynState) (config : UserBackendConfig) :
    DynState × Except String BackendHandle :=
  match env.mountNFS config.MountPoint with
  | some e => (dm, .error ("failed to mount NFS: " ++ e))
  | none =>
    ({ dm with mountPoints := alSet dm.mountPoints config.UserID config.MountPoint },
     createPosixBackend env config)

/-- `createLustreEnhancedBackend` from `dynamic_backend.go`: `posix.New` on
the mount point, wrapped by `NewLustreEnhancedBackend` (the wrapper adds no
observable registry state). -/
def createLustreEnhancedBackend (env : DynEnv) (config : UserBackendConfig) :
    Except String BackendHandle :=
  env.posixNew config.MountPoint

/-- `createLustreBackend` from `dynamic_backend.go`. -/
def createLustreBackend (env : DynEnv) (dm : DynState) (config : UserBackendConfig) :
    DynState × Except String BackendHandle :=
  match env.mountLustre config.MountPoint with
  | some e => (dm, .error ("failed to mount Lustre: " ++ e))
  | none =>
    ({ dm with mountPoints := alSet dm.mountPoints config.UserID config.MountPoint },
     createLustreEnhancedBackend env config)

/-- `createMinIOBackend` from `dynamic_backend.go`: `s3proxy.New` with the
user-specific meta bucket (no mount step, no mount-point record). -/
def createMinIOBackend (env : DynEnv) (config : UserBackendConfig) :
    Except String BackendHandle :=
  env.s3proxyNew config.UserID

/-- `createRustFSBackend` from `dynamic_backend.go`: a placeholder that
always fails. -/
def createRustFSBackend (_env : DynEnv) (_config : UserBackendConfig) :
    Except String BackendHandle :=
  .error "RustFS backend not implemented yet"

/-- `createBackendByType` from `dynamic_backend.go`: dispatch on the backend
type string. -/
def createBackendByType (env : DynEnv) (dm : DynState) (config : UserBackendConfig) :
    DynState × Except String BackendHandle :=
  if config.BackendType = "posix" then (dm, createPosixBackend env config)
  else if config.BackendType = "cephfs" then createCephFSBackend env dm config
  else if config.BackendType = "nfs" then createNFSBackend env dm config
  else if config.BackendType = "lustre" then createLustreBackend env dm config
  else if config.BackendType = "minio" then (dm, createMinIOBackend env config)
  else if config.BackendType = "rustfs" then (dm, createRustFSBackend env config)
  else (dm, .error ("unsupported backend type: " ++ config.BackendType))

/-- The Go message text of each `auth` error value, used when
`dynamic_backend.go` wraps one with `fmt.Errorf`. -/
def authErrMsg : AuthErr → String
  | .userStorageNotFound => "user storage configuration not found"
  | .quotaExceeded => "storage quota exceeded"
  | .mountFailed => "failed to mount user storage"
  | .unmountFailed => "failed to unmount user storage"
  | .invalidBackendType => "invalid backend type"
  | .nilConfig => "config cannot be nil"
  | .notEnabled => "multi-tenant mode not enabled"
  | .accessDenied => "access denied: resource outside user namespace"

/-- `createDefaultUserConfig` from `dynamic_backend.go`: store a default
storage config rooted at `filepath.Join(GetUserBasePath(userID), "storage")`
with the manager's default backend type and no quota. -/
def createDefaultUserConfig (dcfg : DynamicBackendConfig) (mt : MTState)
    (userID : String) : MTState × Option AuthErr :=
  match GetUserBasePath mt userID with
  | .error e => (mt, some e)
  | .ok basePath =>
    SetUserStorageConfig mt userID
      (some { BackendType := dcfg.DefaultBackend,
              StoragePath := ⟨goJoinL [basePath.data, "storage".data]⟩,
              Quota := 0, UsedSpace := 0, Mounted := false })

/-- The config-resolution prefix of `createUserBackend`: use the stored
storage config, or create (and re-read) the default one.  The final error is
unreachable: after a successful `createDefaultUserConfig` the re-read
succeeds (the Go code ignores that error and would dereference nil). -/
def resolveStorageConfig (dcfg : DynamicBackendConfig) (mt : MTState)
    (userID : String) : Except String (MTState × UserStorageConfig) :=
  match GetUserStorageConfig mt userID with
  | .ok storageConfig => .ok (mt, storageConfig)
  | .error _ =>
    match createDefaultUserConfig dcfg mt userID with
    | (_, some e) =>
      .error ("failed to create default config for user " ++ userID ++ ": " ++ authErrMsg e)
    | (mt2, none) =>
      match GetUserStorageConfig mt2 userID with
      | .ok storageConfig => .ok (mt2, storageConfig)
      | .error _ => .error "nil storage config dereference"

/-- Result of one `GetUserBackend`/`createUserBackend` call: the two updated
manager states, the returned backend or error, and whether this call executed
a construction sequence (reached `createBackendByType`). -/
instance {ε α : Type} [DecidableEq ε] [DecidableEq α] : DecidableEq (Except ε α)
  | .ok a, .ok b =>
    if h : a = b then isTrue (by rw [h]) else isFalse (by simp [h])
  | .ok _, .error _ => isFalse (by simp)
  | .error _, .ok _ => isFalse (by simp)
  | .error a, .error b =>
    if h : a = b then isTrue (by rw [h]) else isFalse (by simp [h])

structure AcquireResult where
  mt : MTState
  dm : DynState
  result : Except String BackendHandle
  constructed : Bool
  deriving Repr, DecidableEq

/-- `createUserBackend` from `dynamic_backend.go`: the body runs under the
exclusive registry lock (`dm.mu.Lock()` for its whole extent), so one call is
atomic with respect to every other registry operation; it re-checks the map
(double-checked pattern), resolves the storage config, stores a `pending`
user config, constructs the backend by type, and on success stores the handle
and marks the config `ready`, on failure marks it `error` and returns the
wrapped error without storing a handle. -/
def createUserBackend (env : DynEnv) (dcfg : DynamicBackendConfig)
    (mt : MTState) (dm : DynState) (userID : String) : AcquireResult :=
  match alGet dm.userBackends userID with
  | some backend => ⟨mt, dm, .ok backend, false⟩
  | none =>
    match resolveStorageConfig dcfg mt userID with
    | .error msg => ⟨mt, dm, .error msg, false⟩
    | .ok (mt2, storageConfig) =>
      let userConfig : UserBackendConfig :=
        { UserID := userID, BackendType := storageConfig.BackendType,
          MountPoint := storageConfig.StoragePath, Quota := storageConfig.Quota,
          UsedSpace := storageConfig.UsedSpace, Status := .pending }
      match createBackendByType env
          { dm with userConfigs := alSet dm.userConfigs userID userConfig }
          userConfig with
      | (dm2, .error e) =>
        ⟨mt2,
         { dm2 with
             userConfigs := alSet dm2.userConfigs userID
               ({ userConfig with Status := .error }) },
         .error ("failed to create backend for user " ++ userID ++ ": " ++ e),
         true⟩
      | (dm2, .ok backend) =>
        ⟨mt2,
         { dm2 with
             userBackends := alSet dm2.userBackends userID backend,
             userConfigs := alSet dm2.userConfigs userID
               ({ userConfig with Status := .ready }) },
         .ok backend,
         true⟩

/-- `GetUserBackend` from `dynamic_backend.go`: read-locked fast lookup
(`updateLastAccessed` touches only the omitted timestamp), falling back to
`createUserBackend` on miss. -/
def GetUserBackend (env : DynEnv) (dcfg : DynamicBackendConfig)
    (mt : MTState) (dm : DynState) (userID : String) : AcquireResult :=
  match alGet dm.userBackends userID with
  | some backend => ⟨mt, dm, .ok backend, false⟩
  | none => createUserBackend env dcfg mt dm userID

/-- The cleanup tail of `UnmountUserBackend`: delete the backend handle and
the mount-point record, mark the config `unmounted`, return success. -/
def unmountCleanup (dm : DynState) (userID : String) : DynState × Option String :=
  let dm2 := { dm with userBackends := alDel dm.userBackends userID,
                       mountPoints := alDel dm.mountPoints userID }
  match alGet dm2.userConfigs userID with
  | some config =>
    ({ dm2 with
        userConfigs := alSet dm2.userConfigs userID
          ({ config with Status := .unmounted }) }, none)
  | none => (dm2, none)

/-- `UnmountUserBackend` from `dynamic_backend.go`: success (`none`) when the
user has no tracked mount point; otherwise mark the config `unmounting`, try
`umount`, retry once with `umount -f`, and only when one of the two attempts
succeeded run the cleanup; when both fail, return the unmount error with the
tracking records still in place. -/
def UnmountUserBackend (env : DynEnv) (dm : DynState) (userID : String) :
    DynState × Option String :=
  match alGet dm.mountPoints userID with
  | none => (dm, none)
  | some mountPoint =>
    let dm1 := match alGet dm.userConfigs userID with
      | some config =>
        { dm with
            userConfigs := alSet dm.userConfigs userID
              ({ config with Status := .unmounting }) }
      | none => dm
    if env.umountOk mountPoint then unmountCleanup dm1 userID
    else if env.umountForceOk mountPoint then unmountCleanup dm1 userID
    else (dm1, some ("failed to unmount " ++ mountPoint))

theorem unmountCleanup_spec (dm : DynState) (userID : String) :
    (unmountCleanup dm userID).2 = none ∧
    (unmountCleanup dm userID).1.mountPoints = alDel dm.mountPoints userID ∧
    (unmountCleanup dm userID).1.userBackends = alDel dm.userBackends userID := by
  simp only [unmountCleanup]
  cases h : alGet dm.userConfigs userID <;> simp [h]

/-- Concrete environment in which both `umount` and `umount -f` fail for
every mount point (and every constructor succeeds). -/
def bothFailEnv : DynEnv :=
  { posixNew := fun _ => .ok 0, mountCephFS := fun _ => none,
    mountNFS := fun _ => none, mountLustre := fun _ => none,
    s3proxyNew := fun _ => .ok 0,
    umountOk := fun _ => false, umountForceOk := fun _ => false }

/-- Concrete environment in which the graceful `umount` succeeds. -/
def umountOkEnv : DynEnv :=
  { posixNew := fun _ => .ok 0, mountCephFS := fun _ => none,
    mountNFS := fun _ => none, mountLustre := fun _ => none,
    s3proxyNew := fun _ => .ok 0,
    umountOk := fun _ => true, umountForceOk := fun _ => false }

/-- Concrete registry state with tenant `t1` mounted at `/mnt/t1`. -/
def mountedState : DynState :=
  { userBackends := [("t1", 7)],
    userConfigs := [("t1", ⟨"t1", "lustre", "/mnt/t1", 0, 0, .ready⟩)],
    mountPoints := [("t1", "/mnt/t1")] }

/-- C2 counterexample: with tenant `t1` mounted and both the graceful and the
forced unmount failing, `UnmountUserBackend` returns the unmount error and the
in-memory backend handle and mount-point record are still in the registry —
the claim says they are removed before returning whether or not both unmount
attempts fail. -/
theorem UnmountUserBackend_keeps_records_on_failure :
    (UnmountUserBackend bothFailEnv mountedState "t1").2 ≠ none ∧
    alGet (UnmountUserBackend bothFailEnv mountedState "t1").1.mountPoints "t1" =
      some "/mnt/t1" ∧
    alGet (UnmountUserBackend bothFailEnv mountedState "t1").1.userBackends "t1" =
      some 7 := by
  refine ⟨?_, ?_, ?_⟩ <;> decide

theorem UnmountUserBackend_behavior (env : DynEnv) (dm : DynState)
    (userID mountPoint : String)
    (hmp : alGet dm.mountPoints userID = some mountPoint) :
    (env.umountOk mountPoint = false → env.umountForceOk mountPoint = false →
      (UnmountUserBackend env dm userID).2 =
        some ("failed to unmount " ++ mountPoint) ∧
      alGet (UnmountUserBackend env dm userID).1.mountPoints userID =
        some mountPoint ∧
      alGet (UnmountUserBackend env dm userID).1.userBackends userID =
        alGet dm.userBackends userID) ∧
    (env.umountOk mountPoint = true ∨ env.umountForceOk mountPoint = true →
      (UnmountUserBackend env dm userID).2 = none ∧
      alGet (UnmountUserBackend env dm userID).1.mountPoints userID = none ∧
      alGet (UnmountUserBackend env dm userID).1.userBackends userID = none) := by
  cases hcfg : alGet dm.userConfigs userID with
  | some config =>
    constructor
    · intro h1 h2
      simp [UnmountUserBackend, hmp, hcfg, h1, h2]
    · intro hok
      have hcl := unmountCleanup_spec
        { dm with
            userConfigs := alSet dm.userConfigs userID
              ({ config with Status := .unmounting }) } userID
      rcases hok with hok | hok
      · simp only [UnmountUserBackend, hmp, hcfg, hok, if_true]
        refine ⟨hcl.1, ?_, ?_⟩
        · rw [hcl.2.1]; exact alGet_del_eq _ _
        · rw [hcl.2.2]; exact alGet_del_eq _ _
      · by_cases h1 : env.umountOk mountPoint
        · simp only [UnmountUserBackend, hmp, hcfg, h1, if_true]
          refine ⟨hcl.1, ?_, ?_⟩
          · rw [hcl.2.1]; exact alGet_del_eq _ _
          · rw [hcl.2.2]; exact alGet_del_eq _ _
        · simp only [UnmountUserBackend, hmp, hcfg, h1, hok, if_false, if_true,
            Bool.false_eq_true]
          refine ⟨hcl.1, ?_, ?_⟩
          · rw [hcl.2.1]; exact alGet_del_eq _ _
          · rw [hcl.2.2]; exact alGet_del_eq _ _
  | none =>
    constructor
    · intro h1 h2
      simp [UnmountUserBackend, hmp, hcfg, h1, h2]
    · intro hok
      have hcl := unmountCleanup_spec dm userID
      rcases hok with hok | hok
      · simp only [UnmountUserBackend, hmp, hcfg, hok, if_true]
        refine ⟨hcl.1, ?_, ?_⟩
        · rw [hcl.2.1]; exact alGet_del_eq _ _
        · rw [hcl.2.2]; exact alGet_del_eq _ _
      · by_cases h1 : env.umountOk mountPoint
        · simp only [UnmountUserBackend, hmp, hcfg, h1, if_true]
          refine ⟨hcl.1, ?_, ?_⟩
          · rw [hcl.2.1]; exact alGet_del_eq _ _
          · rw [hcl.2.2]; exact alGet_del_eq _ _
        · simp only [UnmountUserBackend, hmp, hcfg, h1, hok, if_false, if_true,
            Bool.false_eq_true]
          refine ⟨hcl.1, ?_, ?_⟩
          · rw [hcl.2.1]; exact alGet_del_eq _ _
          · rw [hcl.2.2]; exact alGet_del_eq _ _

/-- C2 (amended): for a tenant whose mount point is tracked, teardown tries a
graceful unmount and on failure retries exactly once with the forced variant;
when either attempt succeeds it removes the tenant's backend handle and
mount-point record and returns success, but when both attempts fail it
returns the unmount error with the handle and mount-point record left in the
registry (only the config status changes to `unmounting`). -/
theorem UnmountUserBackend_spec (env : DynEnv) (dm : DynState)
    (userID mountPoint : String)
    (hmp : alGet dm.mountPoints userID = some mountPoint) :
    (env.umountOk mountPoint = false → env.umountForceOk mountPoint = false →
      (UnmountUserBackend env dm userID).2 =
        some ("failed to unmount " ++ mountPoint) ∧
      alGet (UnmountUserBackend env dm userID).1.mountPoints userID =
        some mountPoint ∧
      alGet (UnmountUserBackend env dm userID).1.userBackends userID =
        alGet dm.userBackends userID) ∧
    (env.umountOk mountPoint = true ∨ env.umountForceOk mountPoint = true →
      (UnmountUserBackend env dm userID).2 = none ∧
      alGet (UnmountUserBackend env dm userID).1.mountPoints userID = none ∧
      alGet (UnmountUserBackend env dm userID).1.userBackends userID = none) :=
  UnmountUserBackend_behavior env dm userID mountPoint hmp

theorem UnmountUserBackend_spec_witness :
    (alGet mountedState.mountPoints "t1" = some "/mnt/t1" ∧
     bothFailEnv.umountOk "/mnt/t1" = false ∧
     bothFailEnv.umountForceOk "/mnt/t1" = false) ∧
    ((UnmountUserBackend bothFailEnv mountedState "t1").2 =
       some ("failed to unmount " ++ "/mnt/t1") ∧
     alGet (UnmountUserBackend bothFailEnv mountedState "t1").1.mountPoints "t1" =
       some "/mnt/t1" ∧
     alGet (UnmountUserBackend bothFailEnv mountedState "t1").1.userBackends "t1" =
       alGet mountedState.userBackends "t1") :=
  ⟨⟨by decide, rfl, rfl⟩,
   (UnmountUserBackend_spec bothFailEnv mountedState "t1" "/mnt/t1" (by decide)).1
     rfl rfl⟩

/-- C8: backend release is idempotent: `UnmountUserBackend` on a tenant with
no tracked mount point is a no-op returning success and leaving the registry
unchanged; in particular, after any successful `UnmountUserBackend` (which
removes the mount-point record) an immediately repeated call for the same
tenant is a no-op success. -/
theorem UnmountUserBackend_idempotent (env env2 : DynEnv) (dm : DynState)
    (userID : String) :
    (alGet dm.mountPoints userID = none →
      UnmountUserBackend env dm userID = (dm, none)) ∧
    ((UnmountUserBackend env dm userID).2 = none →
      UnmountUserBackend env2 (UnmountUserBackend env dm userID).1 userID =
        ((UnmountUserBackend env dm userID).1, none)) := by
  have hnoop : ∀ (e : DynEnv) (d : DynState),
      alGet d.mountPoints userID = none →
      UnmountUserBackend e d userID = (d, none) := by
    intro e d h
    simp [UnmountUserBackend, h]
  refine ⟨hnoop env dm, ?_⟩
  intro h
  have hgone : alGet (UnmountUserBackend env dm userID).1.mountPoints userID = none := by
    cases hmp : alGet dm.mountPoints userID with
    | none => rw [hnoop env dm hmp]; exact hmp
    | some mountPoint =>
      by_cases hok : env.umountOk mountPoint = true ∨ env.umountForceOk mountPoint = true
      · exact ((UnmountUserBackend_behavior env dm userID mountPoint hmp).2 hok).2.1
      · push_neg at hok
        simp only [Bool.not_eq_true] at hok
        have := ((UnmountUserBackend_behavior env dm userID mountPoint hmp).1
          hok.1 hok.2).1
        rw [this] at h
        exact absurd h (by simp)
  exact hnoop env2 _ hgone

theorem UnmountUserBackend_idempotent_witness :
    (alGet (DynState.mountPoints ⟨[], [], []⟩) "t1" = none ∧
     UnmountUserBackend umountOkEnv ⟨[], [], []⟩ "t1" = (⟨[], [], []⟩, none)) ∧
    ((UnmountUserBackend umountOkEnv mountedState "t1").2 = none ∧
     UnmountUserBackend umountOkEnv (UnmountUserBackend umountOkEnv mountedState "t1").1 "t1" =
       ((UnmountUserBackend umountOkEnv mountedState "t1").1, none)) :=
  ⟨⟨by decide,
    (UnmountUserBackend_idempotent umountOkEnv umountOkEnv ⟨[], [], []⟩ "t1").1 (by decide)⟩,
   ⟨by decide,
    (UnmountUserBackend_idempotent umountOkEnv umountOkEnv mountedState "t1").2 (by decide)⟩⟩

theorem createUserBackend_stores (env : DynEnv) (dcfg : DynamicBackendConfig)
    (mt : MTState) (dm : DynState) (userID : String) (b : BackendHandle)
    (h : (createUserBackend env dcfg mt dm userID).result = .ok b) :
    alGet (createUserBackend env dcfg mt dm userID).dm.userBackends userID = some b := by
  cases h0 : alGet dm.userBackends userID with
  | some bb =>
    simp only [createUserBackend, h0] at h ⊢
    simp only [Except.ok.injEq] at h
    rw [h]
  | none =>
    cases hres : resolveStorageConfig dcfg mt userID with
    | error msg => simp [createUserBackend, h0, hres] at h
    | ok p =>
      obtain ⟨mt2, storageConfig⟩ := p
      simp only [createUserBackend, h0, hres] at h ⊢
      split at h
      · simp at h
      · rename_i dm2 backend heq
        simp only at h
        simp only [heq]
        simp only [Except.ok.injEq] at h
        rw [← h]
        exact alGet_set_eq _ _ _

/-- C9 (amended): the registry lock makes each `createUserBackend` critical
section atomic, so a two-caller race in which both read-locked fast lookups
miss is the serial composition of two `createUserBackend` calls.  When the
first caller's construction succeeds, the second caller's re-check under the
exclusive lock finds the stored handle: it performs no construction sequence
and returns the same handle with the registry unchanged.  (When the first
construction fails, the handle is not stored and the second caller performs
its own construction sequence — see the counterexample for the unamended
claim.) -/
theorem createUserBackend_serialized (env : DynEnv) (dcfg : DynamicBackendConfig)
    (mt : MTState) (dm : DynState) (userID : String) (b : BackendHandle)
    (h : (createUserBackend env dcfg mt dm userID).result = .ok b) :
    (alGet dm.userBackends userID = none →
      (createUserBackend env dcfg mt dm userID).constructed = true) ∧
    createUserBackend env dcfg (createUserBackend env dcfg mt dm userID).mt
        (createUserBackend env dcfg mt dm userID).dm userID =
      ⟨(createUserBackend env dcfg mt dm userID).mt,
       (createUserBackend env dcfg mt dm userID).dm, .ok b, false⟩ := by
  constructor
  · intro h0
    cases hres : resolveStorageConfig dcfg mt userID with
    | error msg => simp [createUserBackend, h0, hres] at h
    | ok p =>
      obtain ⟨mt2, storageConfig⟩ := p
      simp only [createUserBackend, h0, hres] at h ⊢
      split at h
      · simp at h
      · rename_i dm2 backend heq
        simp only [heq]
  · have hstore := createUserBackend_stores env dcfg mt dm userID b h
    conv_lhs => rw [createUserBackend]
    rw [hstore]

/-- Concrete rustfs storage config, accepted by validation. -/
def rustfsCfg : UserStorageConfig :=
  { BackendType := "rustfs", StoragePath := "/base/users/t1", Quota := 0,
    UsedSpace := 0, Mounted := false }

/-- Manager state in which tenant `t1` has a stored (and valid) rustfs
storage config. -/
def rustfsMT : MTState :=
  { config := { Enabled := true, DefaultBackendType := "posix",
                BasePath := "/base", DefaultQuota := 0 },
    userConfigs := [("t1", rustfsCfg)] }

/-- Manager state in which tenant `t1` has a stored posix storage config. -/
def posixMT : MTState :=
  { config := { Enabled := true, DefaultBackendType := "posix",
                BasePath := "/base", DefaultQuota := 0 },
    userConfigs := [("t1", ⟨"posix", "/base/users/t1", 0, 0, false⟩)] }

/-- Environment whose constructors succeed (`posix.New` returns handle 42). -/
def okCreateEnv : DynEnv :=
  { posixNew := fun _ => .ok 42, mountCephFS := fun _ => none,
    mountNFS := fun _ => none, mountLustre := fun _ => none,
    s3proxyNew := fun _ => .ok 43,
    umountOk := fun _ => true, umountForceOk := fun _ => true }

/-- Default dynamic-backend configuration used by the scenarios. -/
def posixDcfg : DynamicBackendConfig := { DefaultBackend := "posix" }

/-- C9 counterexample: tenant `t1` (configured with the always-failing rustfs
backend) is requested by two concurrent callers while no backend exists; both
read-locked fast lookups miss, the registry lock serializes the two
`createUserBackend` critical sections, and — because the failed first
construction stores no handle — the second caller's re-check misses again and
a second full construction sequence executes, contradicting "at most one
mount/construction sequence executes". -/
theorem createUserBackend_double_construction :
    (createUserBackend bothFailEnv posixDcfg rustfsMT ⟨[], [], []⟩ "t1").constructed = true ∧
    (createUserBackend bothFailEnv posixDcfg
        (createUserBackend bothFailEnv posixDcfg rustfsMT ⟨[], [], []⟩ "t1").mt
        (createUserBackend bothFailEnv posixDcfg rustfsMT ⟨[], [], []⟩ "t1").dm
        "t1").constructed = true ∧
    (createUserBackend bothFailEnv posixDcfg rustfsMT ⟨[], [], []⟩ "t1").result =
      .error ("failed to create backend for user " ++ "t1" ++ ": " ++
        "RustFS backend not implemented yet") := by
  refine ⟨?_, ?_, ?_⟩ <;> decide

theorem createUserBackend_serialized_witness :
    ((createUserBackend okCreateEnv posixDcfg posixMT ⟨[], [], []⟩ "t1").result =
      .ok 42) ∧
    ((alGet (DynState.userBackends ⟨[], [], []⟩) "t1" = none →
       (createUserBackend okCreateEnv posixDcfg posixMT ⟨[], [], []⟩ "t1").constructed =
         true) ∧
     createUserBackend okCreateEnv posixDcfg
         (createUserBackend okCreateEnv posixDcfg posixMT ⟨[], [], []⟩ "t1").mt
         (createUserBackend okCreateEnv posixDcfg posixMT ⟨[], [], []⟩ "t1").dm "t1" =
       ⟨(createUserBackend okCreateEnv posixDcfg posixMT ⟨[], [], []⟩ "t1").mt,
        (createUserBackend okCreateEnv posixDcfg posixMT ⟨[], [], []⟩ "t1").dm,
        .ok 42, false⟩) :=
  ⟨by decide,
   createUserBackend_serialized okCreateEnv posixDcfg posixMT ⟨[], [], []⟩ "t1" 42
     (by decide)⟩

theorem createBackendByType_rustfs (env : DynEnv) (dm : DynState)
    (c : UserBackendConfig) (hc : c.BackendType = "rustfs") :
    createBackendByType env dm c = (dm, .error "RustFS backend not implemented yet") := by
  simp [createBackendByType, hc, createRustFSBackend]

/-- C10: the backend kind `rustfs` is accepted by configuration validation
(`SetUserStorageConfig` stores the config and returns success), yet
construction for it always fails: `createBackendByType` returns the
`RustFS backend not implemented yet` error for every rustfs config, and
`GetUserBackend` for a user whose stored backend type is `rustfs` (and who
has no live backend) always returns the wrapped construction error, never a
handle. -/
theorem rustfs_valid_never_constructs :
    (∀ (m : MTState) (userID : String) (c : UserStorageConfig),
      c.BackendType = "rustfs" →
      SetUserStorageConfig m userID (some c) =
        ({ m with userConfigs := alSet m.userConfigs userID c }, none)) ∧
    (∀ (env : DynEnv) (dm : DynState) (c : UserBackendConfig),
      c.BackendType = "rustfs" →
      createBackendByType env dm c = (dm, .error "RustFS backend not implemented yet")) ∧
    (∀ (env : DynEnv) (dcfg : DynamicBackendConfig) (mt : MTState) (dm : DynState)
      (userID : String) (sc : UserStorageConfig),
      alGet dm.userBackends userID = none →
      alGet mt.userConfigs userID = some sc →
      sc.BackendType = "rustfs" →
      (GetUserBackend env dcfg mt dm userID).result =
        .error ("failed to create backend for user " ++ userID ++ ": " ++
          "RustFS backend not implemented yet")) := by
  refine ⟨?_, ?_, ?_⟩
  · intro m userID c hc
    simp only [SetUserStorageConfig, hc]
    rw [if_pos (by decide : (validBackends.contains "rustfs") = true)]
  · intro env dm c hc
    exact createBackendByType_rustfs env dm c hc
  · intro env dcfg mt dm userID sc h0 hsc hrust
    have hres : resolveStorageConfig dcfg mt userID = .ok (mt, sc) := by
      simp [resolveStorageConfig, GetUserStorageConfig, hsc]
    simp only [GetUserBackend, createUserBackend, h0, hres]
    rw [createBackendByType_rustfs _ _ _ (by simpa using hrust)]

theorem rustfs_valid_never_constructs_witness :
    (rustfsCfg.BackendType = "rustfs" ∧
     alGet (DynState.userBackends ⟨[], [], []⟩) "t1" = none ∧
     alGet rustfsMT.userConfigs "t1" = some rustfsCfg) ∧
    SetUserStorageConfig posixMT "t1" (some rustfsCfg) =
      ({ posixMT with userConfigs := alSet posixMT.userConfigs "t1" rustfsCfg }, none) ∧
    createBackendByType bothFailEnv ⟨[], [], []⟩ ⟨"t1", "rustfs", "/p", 0, 0, .pending⟩ =
      (⟨[], [], []⟩, .error "RustFS backend not implemented yet") ∧
    (GetUserBackend bothFailEnv posixDcfg rustfsMT ⟨[], [], []⟩ "t1").result =
      .error ("failed to create backend for user " ++ "t1" ++ ": " ++
        "RustFS backend not implemented yet") :=
  ⟨⟨by decide, by decide, by decide⟩,
   rustfs_valid_never_constructs.1 posixMT "t1" rustfsCfg (by decide),
   rustfs_valid_never_constructs.2.1 bothFailEnv ⟨[], [], []⟩
     ⟨"t1", "rustfs", "/p", 0, 0, .pending⟩ (by decide),
   rustfs_valid_never_constructs.2.2 bothFailEnv posixDcfg rustfsMT ⟨[], [], []⟩
     "t1" rustfsCfg (by decide) (by decide) (by decide)⟩

/-! ## Path containment: lemmas and the `isSubPath` characterization -/

/-- Well-formedness of every element of a cleaned path: nonempty, free of
`/`, and not the element `.`. -/
def GoodSeg (c : List Char) : Prop := c ≠ [] ∧ '/' ∉ c ∧ c ≠ ['.']

theorem splitOnSlash_no_slash :
    ∀ (s : List Char) (g : List Char), g ∈ splitOnSlash s → '/' ∉ g := by
  intro s
  induction s with
  | nil =>
    intro g hg
    simp [splitOnSlash] at hg
    simp [hg]
  | cons c rest ih =>
    intro g hg
    by_cases hc : c = '/'
    · rw [splitOnSlash, if_pos hc] at hg
      rcases List.mem_cons.mp hg with hg | hg
      · simp [hg]
      · exact ih g hg
    · rw [splitOnSlash, if_neg hc] at hg
      cases hsp : splitOnSlash rest with
      | nil =>
        rw [hsp] at hg
        simp at hg
        subst hg
        intro hcon
        exact hc (List.mem_singleton.mp hcon).symm
      | cons g0 gs =>
        rw [hsp] at hg
        rcases List.mem_cons.mp hg with hg | hg
        · subst hg
          have h0 : '/' ∉ g0 := ih g0 (by rw [hsp]; exact List.mem_cons_self _ _)
          intro hcon
          rcases List.mem_cons.mp hcon with hcon | hcon
          · exact hc hcon.symm
          · exact h0 hcon
        · exact ih g (by rw [hsp]; exact List.mem_cons_of_mem _ hg)

theorem cleanPush_good (rooted : Bool) (out : List (List Char)) (c : List Char)
    (hout : ∀ x ∈ out, GoodSeg x) (hc : '/' ∉ c) :
    ∀ x ∈ cleanPush rooted out c, GoodSeg x := by
  intro x hx
  rw [cleanPush.eq_def] at hx
  by_cases h1 : c = [] ∨ c = ['.']
  · rw [if_pos h1] at hx
    exact hout x hx
  · rw [if_neg h1] at hx
    by_cases h2 : c = ['.', '.']
    · rw [if_pos h2] at hx
      cases out with
      | nil =>
        simp only at hx
        cases rooted with
        | true => simp at hx
        | false =>
          simp at hx
          subst hx
          exact ⟨by decide, by decide, by decide⟩
      | cons top rest =>
        simp only at hx
        by_cases h3 : top = ['.', '.']
        · rw [if_pos h3] at hx
          rcases List.mem_cons.mp hx with hx | hx
          · subst hx; subst h2
            exact ⟨by decide, hc, by decide⟩
          · exact hout x hx
        · rw [if_neg h3] at hx
          exact hout x (List.mem_cons_of_mem _ hx)
    · rw [if_neg h2] at hx
      rcases List.mem_cons.mp hx with hx | hx
      · subst hx
        refine ⟨?_, hc, ?_⟩
        · intro hnil; exact h1 (Or.inl hnil)
        · intro hdot; exact h1 (Or.inr hdot)
      · exact hout x hx

theorem foldl_cleanPush_good (rooted : Bool) :
    ∀ (segs : List (List Char)) (acc : List (List Char)),
      (∀ x ∈ acc, GoodSeg x) → (∀ g ∈ segs, '/' ∉ g) →
      ∀ x ∈ segs.foldl (cleanPush rooted) acc, GoodSeg x := by
  intro segs
  induction segs with
  | nil => intro acc hacc _ x hx; exact hacc x hx
  | cons g rest ih =>
    intro acc hacc hsegs x hx
    rw [List.foldl_cons] at hx
    refine ih (cleanPush rooted acc g) ?_ ?_ x hx
    · exact cleanPush_good rooted acc g hacc (hsegs g (List.mem_cons_self _ _))
    · intro g' hg'; exact hsegs g' (List.mem_cons_of_mem _ hg')

theorem cleanCompsOf_good (s : List Char) :
    ∀ x ∈ cleanCompsOf s, GoodSeg x := by
  intro x hx
  rw [cleanCompsOf, cleanSegs] at hx
  rw [List.mem_reverse] at hx
  exact foldl_cleanPush_good (isAbsL s) (splitOnSlash s) [] (by simp)
    (splitOnSlash_no_slash s) x hx

theorem joinComps_starts_dotdot (c : List Char) (cs : List (List Char))
    (hc : c ≠ []) :
    strStarts (joinComps (c :: cs)) dotdotL = strStarts c dotdotL := by
  cases cs with
  | nil => rfl
  | cons d ds =>
    cases c with
    | nil => exact absurd rfl hc
    | cons x xs =>
      cases xs with
      | nil => simp [joinComps, strStarts, dotdotL]
      | cons y ys => simp [joinComps, strStarts, dotdotL]

theorem joinComps_starts_slash (c : List Char) (cs : List (List Char))
    (hc : c ≠ []) :
    strStarts (joinComps (c :: cs)) ['/'] = strStarts c ['/'] := by
  cases cs with
  | nil => rfl
  | cons d ds =>
    cases c with
    | nil => exact absurd rfl hc
    | cons x xs =>
      cases xs with
      | nil => simp [joinComps, strStarts]
      | cons y ys => simp [joinComps, strStarts]

theorem strStarts_slash_mem (c : List Char) (h : strStarts c ['/'] = true) :
    '/' ∈ c := by
  cases c with
  | nil => simp [strStarts] at h
  | cons x xs =>
    simp only [strStarts, Bool.and_eq_true, beq_iff_eq] at h
    rw [← h.1]
    exact List.mem_cons_self _ _

theorem listLeads_refl : ∀ l : List (List Char), listLeads l l = true := by
  intro l
  induction l with
  | nil => rfl
  | cons a rest ih => simp [listLeads, ih]

theorem dropCommonSegs_spec :
    ∀ bs ts : List (List Char),
      ((dropCommonSegs bs ts).1 = [] →
        (listLeads bs ts = true ∧ (dropCommonSegs bs ts).2 = ts.drop bs.length)) ∧
      ((dropCommonSegs bs ts).1 ≠ [] → listLeads bs ts = false) := by
  intro bs
  induction bs with
  | nil =>
    intro ts
    constructor
    · intro _
      exact ⟨rfl, by simp [dropCommonSegs]⟩
    · intro h
      simp [dropCommonSegs] at h
  | cons b bs ih =>
    intro ts
    cases ts with
    | nil =>
      constructor
      · intro h; simp [dropCommonSegs] at h
      · intro _; rfl
    | cons t ts =>
      by_cases hbt : b = t
      · constructor
        · intro h
          simp only [dropCommonSegs, if_pos hbt] at h ⊢
          obtain ⟨h1, h2⟩ := (ih ts).1 h
          refine ⟨by simp [listLeads, hbt, h1], ?_⟩
          rw [h2]
          simp
        · intro h
          simp only [dropCommonSegs, if_pos hbt] at h
          have := (ih ts).2 h
          simp [listLeads, hbt, this]
      · constructor
        · intro h
          simp only [dropCommonSegs, if_neg hbt] at h
          simp at h
        · intro _
          simp [listLeads, hbt]

theorem listLeads_append_drop :
    ∀ bs ts : List (List Char), listLeads bs ts = true →
      ts = bs ++ ts.drop bs.length := by
  intro bs
  induction bs with
  | nil => intro ts _; simp
  | cons b bs ih =>
    intro ts h
    cases ts with
    | nil => simp [listLeads] at h
    | cons t ts' =>
      simp only [listLeads, Bool.and_eq_true, beq_iff_eq] at h
      obtain ⟨hbt, h2⟩ := h
      rw [List.cons_append, List.length_cons, List.drop_succ_cons]
      rw [← ih ts' h2, hbt]

/-- The only way the code's `HasPrefix(rel, "..")` test can reject a true
descendant: the first element of the relative path begins with the two
characters `..`. -/
def relHeadOk (bcs tcs : List (List Char)) : Bool :=
  match tcs.drop bcs.length with
  | [] => true
  | c :: _ => !(strStarts c dotdotL)

theorem isSubPathCore_iff (base path : List Char) :
    isSubPathCore base path = true ↔
      ((isAbsL base == isAbsL path) = true ∧
       listLeads (cleanCompsOf base) (cleanCompsOf path) = true ∧
       relHeadOk (cleanCompsOf base) (cleanCompsOf path) = true) := by
  by_cases heq : isAbsL base = isAbsL path ∧ cleanCompsOf base = cleanCompsOf path
  · have hrel : relCore base path = some ['.'] := by
      rw [relCore, if_pos heq]
    have e1 : isAbsL ['.'] = false := by decide
    have e2 : strStarts ['.'] dotdotL = false := by decide
    simp [isSubPathCore, hrel, e1, e2, heq.1, heq.2, listLeads_refl, relHeadOk,
      List.drop_length]
  · by_cases habs : isAbsL base = isAbsL path
    · have hcomps : cleanCompsOf base ≠ cleanCompsOf path := fun hc => heq ⟨habs, hc⟩
      have habs' : ¬ (isAbsL base ≠ isAbsL path) := fun h => h habs
      by_cases hts : isAbsL path = false ∧ cleanCompsOf path = []
      · -- the cleaned target is "."; it enters the element scan as the
        -- single element "."
        obtain ⟨b, bs, hbcs⟩ : ∃ b bs, cleanCompsOf base = b :: bs := by
          cases hb : cleanCompsOf base with
          | nil => exact absurd (hb.trans hts.2.symm) hcomps
          | cons b bs => exact ⟨b, bs, rfl⟩
        have hbgood := cleanCompsOf_good base b (by
          rw [hbcs]; exact List.mem_cons_self _ _)
        have hbne : b ≠ ['.'] := hbgood.2.2
        have hfalse : isSubPathCore base path = false := by
          rw [isSubPathCore, relCore, if_neg heq, if_neg habs', if_pos hts, hbcs]
          simp only [dropCommonSegs, if_neg hbne]
          by_cases hbdd : b = dotdotL
          · rw [if_pos hbdd]
          · rw [if_neg hbdd]
            have hstart : strStarts (joinComps (List.replicate (bs.length + 1) dotdotL
                ++ [['.']])) dotdotL = true := by
              rw [List.replicate_succ, List.cons_append,
                joinComps_starts_dotdot dotdotL _ (by decide)]
              decide
            simp [hstart]
        rw [hfalse]
        simp only [Bool.false_eq_true, false_iff]
        rintro ⟨-, h2, -⟩
        rw [hbcs, hts.2] at h2
        simp [listLeads] at h2
      · have htsegs : (if isAbsL path = false ∧ cleanCompsOf path = [] then [['.']]
            else cleanCompsOf path) = cleanCompsOf path := if_neg hts
        cases hfst : (dropCommonSegs (cleanCompsOf base) (cleanCompsOf path)).1 with
        | nil =>
          obtain ⟨hlead, hsnd⟩ :=
            (dropCommonSegs_spec (cleanCompsOf base) (cleanCompsOf path)).1 hfst
          have hdc : dropCommonSegs (cleanCompsOf base) (cleanCompsOf path) =
              ([], (cleanCompsOf path).drop (cleanCompsOf base).length) := by
            rw [Prod.ext_iff]
            exact ⟨hfst, hsnd⟩
          have hrel : relCore base path =
              some (renderRel ((cleanCompsOf path).drop (cleanCompsOf base).length)) := by
            rw [relCore, if_neg heq, if_neg habs', htsegs, hdc]
          cases htrest : (cleanCompsOf path).drop (cleanCompsOf base).length with
          | nil =>
            have : cleanCompsOf path = cleanCompsOf base := by
              have h := listLeads_append_drop _ _ hlead
              rw [htrest] at h
              simpa using h
            exact absurd this.symm hcomps
          | cons c rest =>
            have hcmem : c ∈ cleanCompsOf path :=
              List.drop_subset _ _ (htrest ▸ List.mem_cons_self c rest)
            have hcgood := cleanCompsOf_good path c hcmem
            have habsr : isAbsL (joinComps (c :: rest)) = false := by
              rw [isAbsL, joinComps_starts_slash c rest hcgood.1]
              cases hss : strStarts c ['/'] with
              | false => rfl
              | true => exact absurd (strStarts_slash_mem c hss) hcgood.2.1
            have hdd : strStarts (joinComps (c :: rest)) dotdotL = strStarts c dotdotL :=
              joinComps_starts_dotdot c rest hcgood.1
            rw [isSubPathCore, hrel, htrest]
            show (!(isAbsL (joinComps (c :: rest))) &&
              !(strStarts (joinComps (c :: rest)) dotdotL)) = true ↔ _
            rw [habsr, hdd]
            simp [habs, hlead, relHeadOk, htrest]
        | cons b bs' =>
          have hlead := (dropCommonSegs_spec (cleanCompsOf base)
            (cleanCompsOf path)).2 (by rw [hfst]; simp)
          have hdc : dropCommonSegs (cleanCompsOf base) (cleanCompsOf path) =
              (b :: bs', (dropCommonSegs (cleanCompsOf base) (cleanCompsOf path)).2) := by
            rw [Prod.ext_iff]
            exact ⟨hfst, rfl⟩
          have hfalse : isSubPathCore base path = false := by
            by_cases hbdd : b = dotdotL
            · have hrel : relCore base path = none := by
                rw [relCore, if_neg heq, if_neg habs', htsegs, hdc]
                simp [hbdd]
              simp [isSubPathCore, hrel]
            · have hstart : strStarts (joinComps (List.replicate (bs'.length + 1)
                  dotdotL ++ (dropCommonSegs (cleanCompsOf base)
                    (cleanCompsOf path)).2)) dotdotL = true := by
                rw [List.replicate_succ, List.cons_append,
                  joinComps_starts_dotdot dotdotL _ (by decide)]
                decide
              have hrel : relCore base path =
                  some (joinComps (List.replicate (bs'.length + 1) dotdotL ++
                    (dropCommonSegs (cleanCompsOf base) (cleanCompsOf path)).2)) := by
                rw [relCore, if_neg heq, if_neg habs', htsegs, hdc]
                simp [hbdd]
              simp [isSubPathCore, hrel, hstart]
          rw [hfalse]
          simp only [Bool.false_eq_true, false_iff]
          rintro ⟨-, h2, -⟩
          rw [hlead] at h2
          exact absurd h2 (by simp)
    · have hrel : relCore base path = none := by
        rw [relCore, if_neg heq, if_pos habs]
      rw [show isSubPathCore base path = false from by simp [isSubPathCore, hrel]]
      simp only [Bool.false_eq_true, false_iff]
      rintro ⟨h1, -, -⟩
      exact habs (by simpa using h1)

/-- C7 counterexample: with tenant isolation enabled (`BasePath = "/data"`,
user `u1`, base path `/data/users/u1`), the resource
`/data/users/u1/..x` — a plain file named `..x` directly under the user's
base path, hence a filesystem descendant of it — is rejected by `isSubPath`
and by `ValidateUserAccess`, because `filepath.HasPrefix(rel, "..")` is a
plain string-prefix test and the relative path `..x` begins with the two
characters `..`; so not every path under the user's base path is permitted. -/
theorem isSubPath_rejects_descendant :
    specIsDescendant "/data/users/u1" "/data/users/u1/..x" = true ∧
    isSubPath "/data/users/u1" "/data/users/u1/..x" = false ∧
    ValidateUserAccess ⟨⟨true, "posix", "/data", 0⟩, []⟩ "u1" "/data/users/u1/..x" =
      some .accessDenied ∧
    ValidateUserAccess ⟨⟨true, "posix", "/data", 0⟩, []⟩ "u1" "/data/users/u1/obj" =
      none := by
  refine ⟨?_, ?_, ?_, ?_⟩ <;> decide

/-- C7 (amended): with tenant isolation enabled, `isSubPath` permits a
resource exactly when it is a filesystem descendant of (or equal to) the
base path — decided by relative-path containment on the cleaned paths, so no
path outside the base path is ever permitted — EXCEPT that a descendant whose
first path element below the base begins with the two characters `..` (such
as a file named `..x`) is also rejected, because the code tests the relative
path with the string-prefix check `filepath.HasPrefix(relPath, "..")`. -/
theorem isSubPath_characterization (base path : String) :
    isSubPath base path = true ↔
      (specIsDescendant base path = true ∧
       relHeadOk (cleanCompsOf base.data) (cleanCompsOf path.data) = true) := by
  rw [isSubPath, isSubPathCore_iff, specIsDescendant]
  constructor
  · rintro ⟨h1, h2, h3⟩
    exact ⟨by simp [h1, h2], h3⟩
  · rintro ⟨h12, h3⟩
    simp only [Bool.and_eq_true] at h12
    exact ⟨h12.1, h12.2, h3⟩
